import Mathlib

/-!
Verification development for the OGImageGrabber pipeline (`main.py`).

The program is a sequential batch tool: it reads `urls.txt`, and for each
non-blank line fetches the page, extracts og:image / title / description
with BeautifulSoup, downloads the og:image if present, and writes a
`<host>.txt` metadata file into `dist/`.

We give a shallow embedding:
* the external URL library (`urllib.parse`: `urlsplit`, `urlunsplit`,
  `urljoin`, `urlparse(...).netloc/.path`) and `os.path.basename` are
  modelled as executable Lean functions mirroring CPython (omitting the
  rarely-relevant `;params` component of `urlparse`);
* the HTTP client (`requests`) is modelled as an oracle
  `String → Option body`: `none` covers both a raised network error and a
  non-success status turned into an exception by `raise_for_status`
  (`requests` also raises on scheme-less URLs, which matters for one
  driver-level hypothesis);
* parsed HTML (the BeautifulSoup soup) is modelled as the ordered list of
  its elements, each with a tag name, an ordered attribute list and its
  text content; `soup.find` is first-match search in document order.
  A bs4 `Tag` object is always truthy, so Python's `if tag:` tests
  become `Option.isSome` tests on the find result;
* the filesystem is a map from paths to file data plus a set of
  directories, with an oracle deciding which `open` and which streamed
  chunk write succeed (a failed chunk write raises, leaving the partial
  file behind, exactly as a mid-stream `f.write` failure would).

String primitives are implemented over `List Char` by structural
recursion so that every definition evaluates inside the kernel.
-/

namespace OGImageGrabber

/-! ## Character-level string primitives (kernel-computable) -/

/-- Split a character list on a separator character; mirrors Python
`str.split(sep)`: the result is never empty, and `""` splits to `[""]`. -/
def chSplit (sep : Char) : List Char → List (List Char)
  | [] => [[]]
  | c :: rest =>
    let r := chSplit sep rest
    if c == sep then [] :: r
    else
      match r with
      | h :: t => (c :: h) :: t
      | [] => [[c]]

/-- Python `s.split(sep)` for a one-character separator, on strings. -/
def strSplit (sep : Char) (s : String) : List String :=
  (chSplit sep s.data).map String.mk

/-- Python `sep.join(l)`. -/
def strJoin (sep : String) : List String → String
  | [] => ""
  | h :: t => t.foldl (fun acc x => acc ++ sep ++ x) h

/-- Does the string start with `/` (Python `s[:1] == '/'`)? -/
def startsWithSlash (s : String) : Bool :=
  match s.data with
  | '/' :: _ => true
  | _ => false

/-- Does the string start with `//` (Python `s[:2] == '//'`)? -/
def startsWith2Slash (s : String) : Bool :=
  match s.data with
  | '/' :: '/' :: _ => true
  | _ => false

/-- Python `str.strip()` with no argument: remove leading and trailing
whitespace. -/
def pyStrip (s : String) : String :=
  String.mk (((s.data.dropWhile Char.isWhitespace).reverse.dropWhile
    Char.isWhitespace).reverse)

/-! ## Model of `urllib.parse` (external library, CPython semantics) -/

/-- Result of `urlsplit`: scheme, netloc, path, query, fragment. -/
structure SplitResult where
  scheme : String
  netloc : String
  path : String
  query : String
  fragment : String
  deriving Repr, DecidableEq

/-- CPython `urllib.parse.uses_relative`. -/
def uses_relative : List String :=
  ["", "ftp", "http", "gopher", "nntp", "imap", "wais", "file", "https",
   "shttp", "mms", "prospero", "rtsp", "rtspu", "sftp", "svn", "svn+ssh",
   "ws", "wss"]

/-- CPython `urllib.parse.uses_netloc`. -/
def uses_netloc : List String :=
  ["", "ftp", "http", "gopher", "nntp", "telnet", "imap", "wais", "file",
   "mms", "https", "shttp", "snews", "prospero", "rtsp", "rtspu", "rsync",
   "svn", "svn+ssh", "sftp", "nfs", "git", "git+ssh", "ws", "wss"]

/-- A character allowed after the first one in a URL scheme
(CPython `scheme_chars`: letters, digits, `+`, `-`, `.`). -/
def isSchemeChar (c : Char) : Bool :=
  c.isAlphanum || c == '+' || c == '-' || c == '.'

/-- Scan for `scheme:`: accumulate scheme characters until the first `:`.
Returns the characters before the colon and the rest, or `none` if a
non-scheme character or the end of the string is reached first. -/
def schemeScan (acc : List Char) : List Char → Option (List Char × List Char)
  | [] => none
  | c :: rest =>
    if c == ':' then some (acc.reverse, rest)
    else if isSchemeChar c then schemeScan (c :: acc) rest
    else none

/-- Split a leading `scheme:` off a URL, CPython style: the first character
must be an ASCII letter and at least one character must precede the `:`.
The scheme is lowercased. -/
def splitScheme (cs : List Char) : Option (String × List Char) :=
  match cs with
  | [] => none
  | c :: _ =>
    if c.isAlpha then
      match schemeScan [] cs with
      | some ([], _) => none
      | some (s, rest) => some (String.mk (s.map Char.toLower), rest)
      | none => none
    else none

/-- Take characters until one of the delimiters, returning (taken, rest).
Used for `_splitnetloc` (delimiters `/?#`). -/
def takeUntil (delims : List Char) : List Char → List Char × List Char
  | [] => ([], [])
  | c :: rest =>
    if delims.contains c then ([], c :: rest)
    else
      let (a, b) := takeUntil delims rest
      (c :: a, b)

/-- Split at the first occurrence of `sep`: `(before, some after)` if
present, `(whole, none)` otherwise. -/
def splitFirst (sep : Char) : List Char → List Char × Option (List Char)
  | [] => ([], none)
  | c :: rest =>
    if c == sep then ([], some rest)
    else
      let (a, b) := splitFirst sep rest
      (c :: a, b)

/-- Model of CPython `urllib.parse.urlsplit url dflt` (with
`allow_fragments=True`); `dflt` is the default scheme. -/
def urlsplit (dflt : String) (url : String) : SplitResult :=
  let cs := url.data
  let (scheme, cs) :=
    match splitScheme cs with
    | some (s, rest) => (s, rest)
    | none => (dflt, cs)
  let (netloc, cs) :=
    match cs with
    | '/' :: '/' :: rest =>
      let (nl, r) := takeUntil ['/', '?', '#'] rest
      (String.mk nl, r)
    | _ => ("", cs)
  let (cs, fragment) :=
    match splitFirst '#' cs with
    | (a, some f) => (a, String.mk f)
    | (a, none) => (a, "")
  let (path, query) :=
    match splitFirst '?' cs with
    | (a, some q) => (String.mk a, String.mk q)
    | (a, none) => (String.mk a, "")
  ⟨scheme, netloc, path, query, fragment⟩

/-- Model of CPython `urllib.parse.urlunsplit`. -/
def urlunsplit (r : SplitResult) : String :=
  let url := r.path
  let url :=
    if r.netloc ≠ "" ∨ (url ≠ "" ∧ startsWith2Slash url) then
      let url := if url ≠ "" ∧ ¬ startsWithSlash url then "/" ++ url else url
      "//" ++ r.netloc ++ url
    else url
  let url := if r.scheme ≠ "" then r.scheme ++ ":" ++ url else url
  let url := if r.query ≠ "" then url ++ "?" ++ r.query else url
  if r.fragment ≠ "" then url ++ "#" ++ r.fragment else url

/-- `segments[1:-1] = filter(None, segments[1:-1])`: drop empty strings
from the interior of the list, keeping the first and last elements. -/
def filterInterior (l : List String) : List String :=
  match l with
  | [] => []
  | [x] => [x]
  | x :: rest =>
    x :: ((rest.dropLast.filter (fun s => s ≠ "")) ++ [rest.getLastD ""])

/-- RFC 3986 dot-segment resolution as in CPython `urljoin`:
`..` pops the accumulator (no error on empty), `.` is dropped. -/
def resolveSegments (segments : List String) : List String :=
  let resolved := segments.foldl
    (fun acc seg =>
      if seg = ".." then acc.dropLast
      else if seg = "." then acc
      else acc ++ [seg]) []
  if segments.getLastD "" = "." ∨ segments.getLastD "" = ".." then
    resolved ++ [""]
  else resolved

/-- Model of CPython `urllib.parse.urljoin` (the `;params` component of
`urlparse` is omitted: params are kept as part of the path). -/
def urljoin (base url : String) : String :=
  if base = "" then url
  else if url = "" then base
  else
    let b := urlsplit "" base
    let u := urlsplit b.scheme url
    if u.scheme ≠ b.scheme ∨ u.scheme ∉ uses_relative then url
    else if u.scheme ∈ uses_netloc ∧ u.netloc ≠ "" then urlunsplit u
    else
      let netloc := if u.scheme ∈ uses_netloc then b.netloc else u.netloc
      if u.path = "" then
        let query := if u.query = "" then b.query else u.query
        urlunsplit ⟨u.scheme, netloc, b.path, query, u.fragment⟩
      else
        let base_parts := strSplit '/' b.path
        let base_parts :=
          if base_parts.getLastD "" ≠ "" then base_parts.dropLast
          else base_parts
        let segments :=
          if startsWithSlash u.path then strSplit '/' u.path
          else filterInterior (base_parts ++ strSplit '/' u.path)
        let joined := strJoin "/" (resolveSegments segments)
        let path := if joined = "" then "/" else joined
        urlunsplit ⟨u.scheme, netloc, path, u.query, u.fragment⟩

/-- `urlparse(url).netloc` (identical to `urlsplit`'s netloc). -/
def urlparse_netloc (url : String) : String := (urlsplit "" url).netloc

/-- `urlparse(url).path`, with the `;params` simplification noted above. -/
def urlparse_path (url : String) : String := (urlsplit "" url).path

/-- The scheme a string parses with on its own. -/
def schemeOf (url : String) : String := (urlsplit "" url).scheme

/-- Model of `os.path.basename` (POSIX): everything after the last `/`. -/
def os_basename (p : String) : String := (strSplit '/' p).getLastD ""

/-! ## Model of parsed HTML (BeautifulSoup with `html.parser`) -/

/-- One parsed HTML element: tag name, attribute list in document order
(`html.parser` keeps the first of duplicate attributes; `attrGet` below
looks up the first match), and the element's text content (`tag.text`,
the concatenation of its descendant strings). -/
structure Tag where
  name : String
  attrs : List (String × String)
  text : String
  deriving Repr, DecidableEq

/-- A parsed document: its elements flattened in document order, which is
the order `soup.find` searches. -/
abbrev Html := List Tag

/-- `tag.get(key)` / `tag[key]`: the first attribute with the given name. -/
def attrGet (t : Tag) (key : String) : Option String :=
  (t.attrs.find? (fun a => a.1 == key)).map (fun a => a.2)

/-- `soup.find(name)`: first element with the given tag name. -/
def findTag (soup : Html) (name : String) : Option Tag :=
  soup.find? (fun t => t.name == name)

/-- `soup.find(name, attr=val)` / `soup.find(name, attrs={attr: val})`:
first element with the given tag name whose `attr` attribute equals
`val`. -/
def findTagAttr (soup : Html) (name attr val : String) : Option Tag :=
  soup.find? (fun t => t.name == name && attrGet t attr == some val)

/-! ## Model of the filesystem and its failure oracle -/

/-- Contents of a file: raw bytes (image download) or text (metadata). -/
inductive FileData where
  | bytes (b : List Nat)
  | text (s : String)
  deriving Repr, DecidableEq

/-- The filesystem: a partial map from paths to file data, plus the set
of directories. -/
structure Fs where
  files : String → Option FileData
  dirs : String → Bool

/-- Write (create or overwrite) a file. -/
def Fs.writeFile (fs : Fs) (p : String) (d : FileData) : Fs :=
  { fs with files := fun q => if q = p then some d else fs.files q }

/-- Append a chunk of bytes to a file (used by the streaming download
loop; the file was created empty by `open`). -/
def Fs.appendBytes (fs : Fs) (p : String) (c : List Nat) : Fs :=
  match fs.files p with
  | some (FileData.bytes b) => fs.writeFile p (FileData.bytes (b ++ c))
  | _ => fs.writeFile p (FileData.bytes c)

/-- `Path.mkdir(exist_ok=True)`: record the directory, never failing. -/
def Fs.mkdir (fs : Fs) (p : String) : Fs :=
  { fs with dirs := fun q => if q = p then true else fs.dirs q }

/-- Which filesystem operations succeed: `openOk p` is whether `open(p)`
succeeds, `chunkOk p i` whether the `i`-th streamed chunk write to `p`
succeeds (a `False` models an `OSError` raised mid-stream). -/
structure FsOracle where
  openOk : String → Bool
  chunkOk : String → Nat → Bool

/-- The streaming write loop `for chunk in response.iter_content(...):
f.write(chunk)`. On a failed chunk write the exception propagates,
carrying the filesystem with the partial file (`Except.error`). -/
def writeChunks (o : FsOracle) (p : String) :
    List (List Nat) → Nat → Fs → Except Fs Fs
  | [], _, fs => Except.ok fs
  | c :: rest, i, fs =>
    if o.chunkOk p i then writeChunks o p rest (i + 1) (fs.appendBytes p c)
    else Except.error fs

/-! ## The four program functions of `main.py` -/

/-- The filename `download_image` derives:
`filename = os.path.basename(urlparse(image_url).path)` with the
fallback `'image.jpg'` when that is empty (falsy). -/
def dlFilename (image_url : String) : String :=
  let filename := os_basename (urlparse_path image_url)
  if filename = "" then "image.jpg" else filename

/-- `download_image(image_url, save_path)`.

`net` is the `requests.get(..., stream=True)` + `raise_for_status()`
oracle: `none` means an exception (network error or non-success status),
`some chunks` a successful response body as the chunk list
`response.iter_content(chunk_size=8192)` yields. The filename is the
basename of the URL's path, or `'image.jpg'` if that is empty; the body
is streamed to `save_path / filename`. Any exception is caught and
turned into `False`; the filesystem as of the exception is kept. -/
def download_image (net : String → Option (List (List Nat)))
    (o : FsOracle) (image_url : String) (save_path : String) (fs : Fs) :
    Bool × Fs :=
  match net image_url with
  | none => (false, fs)
  | some chunks =>
    let file_path := save_path ++ "/" ++ dlFilename image_url
    if o.openOk file_path then
      match writeChunks o file_path chunks 0
          (fs.writeFile file_path (FileData.bytes [])) with
      | Except.ok fs' => (true, fs')
      | Except.error fs' => (false, fs')
    else (false, fs)

/-- The extractor's result: `(og_image_url, title_text, desc_text)`. -/
structure PageMetadata where
  og : Option String
  title : Option String
  desc : Option String
  deriving Repr, DecidableEq

/-- `get_page_metadata(url)`.

`net` models `requests.get(url)` + `raise_for_status()` + the tolerant
BeautifulSoup parse (which never fails): `none` is a fetch failure,
`some soup` the parsed document. Mirrors the source's truthiness tests:
a found bs4 `Tag` is always truthy, so `if title` is a found-check, while
`og_image.get('content')` and `description.get('content')` are also
false for an *empty* content string. -/
def get_page_metadata (net : String → Option Html) (url : String) :
    PageMetadata :=
  match net url with
  | none => ⟨none, none, none⟩
  | some soup =>
    let title_text :=
      match findTag soup "title" with
      | some t => some (pyStrip t.text)
      | none => none
    let og_image_url :=
      match findTagAttr soup "meta" "property" "og:image" with
      | some t =>
        match attrGet t "content" with
        | some c => if c ≠ "" then some (urljoin url c) else none
        | none => none
      | none => none
    let desc_text :=
      match findTagAttr soup "meta" "name" "description" with
      | some t =>
        match attrGet t "content" with
        | some c => if c ≠ "" then some (pyStrip c) else none
        | none => none
      | none => none
    ⟨og_image_url, title_text, desc_text⟩

/-- `title or 'Not found'` / `description or 'Not found'`: Python `or`
falls through on falsy values, i.e. on `None` *and* on the empty
string. -/
def orNotFound : Option String → String
  | none => "Not found"
  | some s => if s = "" then "Not found" else s

/-- The exact text `save_metadata` writes. -/
def metadataText (url : String) (title description : Option String) :
    String :=
  "URL: " ++ url ++ "\n\n" ++
  "Title: " ++ orNotFound title ++ "\n\n" ++
  "Description: " ++ orNotFound description ++ "\n"

/-- `save_metadata(url, title, description, save_path)`: write
`<netloc>.txt` in `save_path` (mode `'w'`, truncating/overwriting), with
the three labelled blocks; `True` on success, `False` if the filesystem
raises (modelled at `open`). -/
def save_metadata (o : FsOracle) (url : String)
    (title description : Option String) (save_path : String) (fs : Fs) :
    Bool × Fs :=
  let filename := urlparse_netloc url ++ ".txt"
  let file_path := save_path ++ "/" ++ filename
  if o.openOk file_path then
    (true, fs.writeFile file_path (FileData.text
      (metadataText url title description)))
  else (false, fs)

/-! ## The driver (`main`) -/

/-- The calls the driver makes, in order, as an observable trace. -/
inductive Ev where
  | extract (url : String)
  | fetchImage (img : String)
  | writeMeta (url : String) (title desc : Option String)
  deriving Repr, DecidableEq

/-- The whole outside world `main` interacts with: the page-fetch oracle,
the image-fetch oracle, the content of `urls.txt` as its list of raw
lines (`none` = the file cannot be opened), and the filesystem oracle. -/
structure World where
  net : String → Option Html
  imgNet : String → Option (List (List Nat))
  urlsFile : Option (List String)
  fso : FsOracle

/-- The body of the driver's per-URL loop iteration: extract, then
`if og_image_url:` (truthiness: skips `None` and the empty string)
download, then unconditionally save metadata. Returns the new
filesystem and the calls made. -/
def processUrl (w : World) (dist : String) (fs : Fs) (url : String) :
    Fs × List Ev :=
  let m := get_page_metadata w.net url
  let r1 :=
    match m.og with
    | some img =>
      if img = "" then (fs, ([] : List Ev))
      else ((download_image w.imgNet w.fso img dist fs).2, [Ev.fetchImage img])
    | none => (fs, ([] : List Ev))
  let fs2 := (save_metadata w.fso url m.title m.desc dist r1.1).2
  (fs2, Ev.extract url :: r1.2 ++ [Ev.writeMeta url m.title m.desc])

/-- The fixed output directory. -/
def distDir : String := "dist"

/-- `urls = [line.strip() for line in f if line.strip()]`. -/
def parseUrls (lines : List String) : List String :=
  (lines.map pyStrip).filter (fun s => s ≠ "")

/-- `main()`: create `dist/`, read `urls.txt`, loop over the URLs; the
whole body is wrapped in `try/except` returning 1, and each per-URL
operation catches its own exceptions, so the only failure that reaches
the top level in this model is the input file failing to open. Returns
the exit code, the final filesystem, and the trace of calls. -/
def main (w : World) (fs : Fs) : Nat × Fs × List Ev :=
  let fs := fs.mkdir distDir
  match w.urlsFile with
  | none => (1, fs, [])
  | some lines =>
    let r := (parseUrls lines).foldl
      (fun (acc : Fs × List Ev) url =>
        ((processUrl w distDir acc.1 url).1,
         acc.2 ++ (processUrl w distDir acc.1 url).2))
      (fs, [])
    (0, r.1, r.2)

/-! ## Concrete worlds used to instantiate the theorems -/

/-- A small page: title `"  Foo  "`, og:image `/pics/cat.png`,
description `"  Bar  "`. -/
def demoSoup : Html :=
  [⟨"title", [], "  Foo  "⟩,
   ⟨"meta", [("property", "og:image"), ("content", "/pics/cat.png")], ""⟩,
   ⟨"meta", [("name", "description"), ("content", "  Bar  ")], ""⟩]

/-- A network where exactly `http://e.com/page` serves `demoSoup`. -/
def demoNet : String → Option Html :=
  fun u => if u = "http://e.com/page" then some demoSoup else none

/-- An image server with one image of two chunks. -/
def demoImgNet : String → Option (List (List Nat)) :=
  fun u => if u = "http://e.com/pics/cat.png" then some [[1, 2], [3]] else none

/-- A filesystem where every operation succeeds. -/
def allOkFso : FsOracle := ⟨fun _ => true, fun _ _ => true⟩

/-- A filesystem where every streamed chunk write after the first one
fails (the open and chunk 0 succeed). -/
def failAfterOneFso : FsOracle := ⟨fun _ => true, fun _ i => i == 0⟩

/-- The empty filesystem. -/
def emptyFs : Fs := ⟨fun _ => none, fun _ => false⟩

/-- A world with a two-URL input file (plus a blank line); the second URL
is unreachable. -/
def demoWorld : World :=
  ⟨demoNet, demoImgNet, some ["http://e.com/page\n", "  \n", "http://x.org\n"],
   allOkFso⟩

/-- The same world with a missing `urls.txt`. -/
def noFileWorld : World := ⟨demoNet, demoImgNet, none, allOkFso⟩

/-! ## Helper lemmas -/

lemma append_ne_empty_left (s t : String) (h : s ≠ "") : s ++ t ≠ "" := by
  obtain ⟨sd⟩ := s
  obtain ⟨td⟩ := t
  intro he
  apply h
  have hd : sd ++ td = ([] : List Char) := congrArg String.data he
  have h1 : sd = [] := (List.append_eq_nil.mp hd).1
  rw [h1]

/-- `urlunsplit` of a split with a nonempty scheme is nonempty
(it starts with `scheme:`). -/
lemma urlunsplit_ne_empty (r : SplitResult) (h : r.scheme ≠ "") :
    urlunsplit r ≠ "" := by
  simp only [urlunsplit]
  split_ifs <;>
    first
      | exact absurd h (by assumption)
      | (repeat' apply append_ne_empty_left); exact h

/-! ## Claim C2: the metadata file's name and content -/

/-- **C2, counterexample.** The claim says a *present* title is written
verbatim and only an absent (`None`) one becomes `Not found`. But for
the present-but-empty title `some ""`, `title or 'Not found'` falls
through and the file contains `Title: Not found`, not the verbatim empty
title the claim requires. -/
theorem c2_counterexample :
    (save_metadata allOkFso "https://a.example.com/page" (some "") (some "hi")
        "dist" emptyFs).2.files "dist/a.example.com.txt" =
      some (FileData.text
        "URL: https://a.example.com/page\n\nTitle: Not found\n\nDescription: hi\n") ∧
    some (FileData.text
        "URL: https://a.example.com/page\n\nTitle: Not found\n\nDescription: hi\n") ≠
      some (FileData.text
        "URL: https://a.example.com/page\n\nTitle: \n\nDescription: hi\n") := by
  decide

/-- **C2** (amended: `Not found` is substituted for an absent (`None`)
*or empty* title/description; nonempty present values are written
verbatim). When the open succeeds, `save_metadata` writes (overwriting)
the file `<netloc>.txt` in the destination directory, whose content is
exactly the three labelled blocks `URL:`, `Title:`, `Description:` in
order, and leaves every other file unchanged. -/
theorem c2_save_metadata_writes_blocks (o : FsOracle) (url : String)
    (title description : Option String) (dist : String) (fs : Fs)
    (h : o.openOk (dist ++ "/" ++ (urlparse_netloc url ++ ".txt")) = true) :
    (save_metadata o url title description dist fs).1 = true ∧
    (save_metadata o url title description dist fs).2.files
        (dist ++ "/" ++ (urlparse_netloc url ++ ".txt")) =
      some (FileData.text ("URL: " ++ url ++ "\n\n" ++ "Title: " ++
        orNotFound title ++ "\n\n" ++ "Description: " ++
        orNotFound description ++ "\n")) ∧
    (∀ q, q ≠ dist ++ "/" ++ (urlparse_netloc url ++ ".txt") →
      (save_metadata o url title description dist fs).2.files q =
        fs.files q) ∧
    orNotFound none = "Not found" ∧
    (∀ s, s ≠ "" → orNotFound (some s) = s) := by
  refine ⟨?_, ?_, ?_, rfl, ?_⟩
  · simp [save_metadata, h]
  · simp [save_metadata, h, Fs.writeFile, metadataText]
  · intro q hq
    simp [save_metadata, h, Fs.writeFile, hq]
  · intro s hs
    simp [orNotFound, hs]

/-- **C2, witness.** The amended theorem at the spec's own example. -/
theorem c2_witness :
    (save_metadata allOkFso "https://a.example.com/page" none (some "hi")
        "dist" emptyFs).1 = true ∧
    (save_metadata allOkFso "https://a.example.com/page" none (some "hi")
        "dist" emptyFs).2.files
        ("dist" ++ "/" ++ (urlparse_netloc "https://a.example.com/page" ++ ".txt")) =
      some (FileData.text ("URL: " ++ "https://a.example.com/page" ++ "\n\n" ++
        "Title: " ++ orNotFound none ++ "\n\n" ++ "Description: " ++
        orNotFound (some "hi") ++ "\n")) := by
  have h := c2_save_metadata_writes_blocks allOkFso "https://a.example.com/page"
    none (some "hi") "dist" emptyFs (by decide)
  exact ⟨h.1, h.2.1⟩

/-! ## Claim C10: a found-but-empty value is indistinguishable from an
absent one in the output -/

/-- **C10.** An empty-string title or description passed to
`save_metadata` produces exactly the same result (file and return value)
as an absent one, because `title or 'Not found'` is also taken on the
empty string; and the extractor can produce a present-but-empty title
from a whitespace-only `<title>` element. -/
theorem c10_empty_indistinguishable_from_absent (o : FsOracle) (url : String)
    (dist : String) (fs : Fs) :
    (∀ description, save_metadata o url (some "") description dist fs =
        save_metadata o url none description dist fs) ∧
    (∀ title, save_metadata o url title (some "") dist fs =
        save_metadata o url title none dist fs) ∧
    orNotFound (some "") = "Not found" ∧
    (get_page_metadata (fun _ => some [⟨"title", [], "   "⟩]) "http://e.com").title =
      some "" := by
    refine ⟨?_, ?_, by decide, by decide⟩
    · intro d
      simp [save_metadata, metadataText, orNotFound]
    · intro t
      simp [save_metadata, metadataText, orNotFound]

/-! ## Claim C3: process exit codes -/

/-- **C3.** `main` returns exit code 1 exactly in the missing-input-file
case, where it writes no files (the filesystem is unchanged apart from
the idempotent creation of the output directory, which touches no
files); whenever the input file opens, the run completes with exit code
0 regardless of what the per-URL operations did. -/
theorem c3_exit_codes (w : World) (fs : Fs) :
    (w.urlsFile = none →
      main w fs = (1, fs.mkdir distDir, []) ∧
      (fs.mkdir distDir).files = fs.files) ∧
    (∀ lines, w.urlsFile = some lines → (main w fs).1 = 0) := by
  constructor
  · intro h
    exact ⟨by simp [main, h], rfl⟩
  · intro lines h
    simp [main, h]

/-- **C3, witness.** A world with a missing `urls.txt` exits 1 without
writing; `demoWorld` (with failures among its URLs) exits 0. -/
theorem c3_witness :
    main noFileWorld emptyFs = (1, emptyFs.mkdir distDir, []) ∧
    (main demoWorld emptyFs).1 = 0 :=
  ⟨((c3_exit_codes noFileWorld emptyFs).1 rfl).1,
   (c3_exit_codes demoWorld emptyFs).2 _ rfl⟩

/-! ## Claim C4: fetch/parse failure yields an all-absent result and the
driver still writes the metadata file -/

/-- **C4.** If the page fetch fails (`requests.get` raises or
`raise_for_status` fires), `get_page_metadata` returns all three values
absent; the driver's loop body then skips the image download and still
calls `save_metadata` with both values absent, so that (when the write
succeeds) a metadata file recording the absence exists afterwards. -/
theorem c4_failure_all_absent_still_saved (w : World) (url : String) (fs : Fs)
    (h : w.net url = none) :
    get_page_metadata w.net url = ⟨none, none, none⟩ ∧
    processUrl w distDir fs url =
      ((save_metadata w.fso url none none distDir fs).2,
        [Ev.extract url, Ev.writeMeta url none none]) ∧
    (w.fso.openOk (distDir ++ "/" ++ (urlparse_netloc url ++ ".txt")) = true →
      (processUrl w distDir fs url).1.files
          (distDir ++ "/" ++ (urlparse_netloc url ++ ".txt")) =
        some (FileData.text ("URL: " ++ url ++ "\n\n" ++ "Title: " ++
          "Not found" ++ "\n\n" ++ "Description: " ++ "Not found" ++ "\n"))) := by
  have hm : get_page_metadata w.net url = ⟨none, none, none⟩ := by
    simp [get_page_metadata, h]
  refine ⟨hm, ?_, ?_⟩
  · simp [processUrl, hm]
  · intro ho
    simp [processUrl, hm, save_metadata, ho, Fs.writeFile, metadataText,
      orNotFound]

/-- **C4, witness.** In `demoWorld`, `http://x.org` is unreachable; the
loop body still writes `dist/x.org.txt` with both fields `Not found`. -/
theorem c4_witness :
    processUrl demoWorld distDir emptyFs "http://x.org" =
      ((save_metadata demoWorld.fso "http://x.org" none none distDir emptyFs).2,
        [Ev.extract "http://x.org", Ev.writeMeta "http://x.org" none none]) ∧
    (processUrl demoWorld distDir emptyFs "http://x.org").1.files
        (distDir ++ "/" ++ (urlparse_netloc "http://x.org" ++ ".txt")) =
      some (FileData.text ("URL: " ++ "http://x.org" ++ "\n\n" ++ "Title: " ++
        "Not found" ++ "\n\n" ++ "Description: " ++ "Not found" ++ "\n")) := by
  have h := c4_failure_all_absent_still_saved demoWorld "http://x.org" emptyFs
    (by decide)
  exact ⟨h.2.1, h.2.2 (by decide)⟩

/-! ## Lemmas about the streaming write loop and the driver's trace -/

/-- If every chunk write succeeds, the write loop extends the file by the
concatenation of the chunks and touches nothing else. -/
lemma writeChunks_all_ok (o : FsOracle) (p : String)
    (hc : ∀ i, o.chunkOk p i = true) :
    ∀ (chunks : List (List Nat)) (i : Nat) (b : List Nat) (fs : Fs),
      fs.files p = some (FileData.bytes b) →
      ∃ fs', writeChunks o p chunks i fs = Except.ok fs' ∧
        fs'.files p = some (FileData.bytes (b ++ chunks.flatten)) ∧
        ∀ q, q ≠ p → fs'.files q = fs.files q := by
  intro chunks
  induction chunks with
  | nil =>
    intro i b fs hf
    exact ⟨fs, rfl, by simpa using hf, fun q hq => rfl⟩
  | cons c rest ih =>
    intro i b fs hf
    have happ : (fs.appendBytes p c).files p = some (FileData.bytes (b ++ c)) := by
      simp [Fs.appendBytes, hf, Fs.writeFile]
    obtain ⟨fs', h1, h2, h3⟩ := ih (i + 1) (b ++ c) (fs.appendBytes p c) happ
    refine ⟨fs', ?_, ?_, ?_⟩
    · simp [writeChunks, hc i, h1]
    · simpa [List.append_assoc] using h2
    · intro q hq
      rw [h3 q hq]
      simp [Fs.appendBytes, hf, Fs.writeFile, hq]

/-- The write loop completes without an exception iff every chunk write
in range succeeds. -/
lemma writeChunks_ok_iff (o : FsOracle) (p : String) :
    ∀ (chunks : List (List Nat)) (i : Nat) (fs : Fs),
      (∃ fs', writeChunks o p chunks i fs = Except.ok fs') ↔
        (∀ j, j < chunks.length → o.chunkOk p (i + j) = true) := by
  intro chunks
  induction chunks with
  | nil =>
    intro i fs
    simp [writeChunks]
  | cons c rest ih =>
    intro i fs
    cases hc : o.chunkOk p i with
    | true =>
      rw [show writeChunks o p (c :: rest) i fs =
          writeChunks o p rest (i + 1) (fs.appendBytes p c) from by
        simp [writeChunks, hc]]
      rw [ih (i + 1) (fs.appendBytes p c)]
      constructor
      · intro hall j hj
        cases j with
        | zero => simpa using hc
        | succ j' =>
          have h' := hall j' (by simpa using Nat.lt_of_succ_lt_succ hj)
          have he : i + 1 + j' = i + (j' + 1) := by omega
          rwa [he] at h'
      · intro hall j hj
        have h' := hall (j + 1) (by simpa using Nat.succ_lt_succ hj)
        have he : i + (j + 1) = i + 1 + j := by omega
        rwa [he] at h'
    | false =>
      constructor
      · rintro ⟨fs', hfs'⟩
        exfalso
        simp [writeChunks, hc] at hfs'
      · intro hall
        exfalso
        have h0 := hall 0 (by simp)
        rw [Nat.add_zero, hc] at h0
        exact Bool.false_ne_true h0

/-- The URLs the driver's trace shows it processed (its `extract` calls). -/
def extractedUrls (evs : List Ev) : List String :=
  evs.filterMap (fun e =>
    match e with
    | Ev.extract u => some u
    | _ => none)

/-- One loop iteration extracts exactly its own URL. -/
lemma processUrl_extracts (w : World) (dist : String) (fs : Fs) (url : String) :
    extractedUrls (processUrl w dist fs url).2 = [url] := by
  rcases hog : (get_page_metadata w.net url).og with _ | img
  · simp [processUrl, hog, extractedUrls]
  · by_cases himg : img = "" <;> simp [processUrl, hog, himg, extractedUrls]

/-- The trace of one loop iteration does not depend on the incoming
filesystem (only the success booleans, which are not recorded, do). -/
lemma processUrl_trace_fs_indep (w : World) (dist : String) (url : String)
    (fs fs' : Fs) :
    (processUrl w dist fs url).2 = (processUrl w dist fs' url).2 := by
  rcases hog : (get_page_metadata w.net url).og with _ | img
  · simp [processUrl, hog]
  · by_cases himg : img = "" <;> simp [processUrl, hog, himg]

/-- The driver's loop produces the concatenation of the per-URL traces. -/
lemma mainLoop_trace (w : World) :
    ∀ (urls : List String) (fs0 : Fs) (evs : List Ev),
      (urls.foldl (fun (acc : Fs × List Ev) url =>
          ((processUrl w distDir acc.1 url).1,
           acc.2 ++ (processUrl w distDir acc.1 url).2)) (fs0, evs)).2
        = evs ++ urls.flatMap (fun url => (processUrl w distDir emptyFs url).2) := by
  intro urls
  induction urls with
  | nil =>
    intro fs0 evs
    simp
  | cons u rest ih =>
    intro fs0 evs
    simp only [List.foldl]
    rw [ih]
    rw [processUrl_trace_fs_indep w distDir u fs0 emptyFs]
    simp [List.flatMap_cons, List.append_assoc]

/-- The driver's whole trace, when the input file opens. -/
lemma main_trace (w : World) (fs : Fs) (lines : List String)
    (h : w.urlsFile = some lines) :
    (main w fs).2.2 =
      (parseUrls lines).flatMap (fun url => (processUrl w distDir emptyFs url).2) := by
  simp only [main, h]
  rw [mainLoop_trace]
  simp

/-- Every parsed URL is processed, whatever the per-URL outcomes. -/
lemma main_extracts (w : World) (fs : Fs) (lines : List String)
    (h : w.urlsFile = some lines) :
    extractedUrls (main w fs).2.2 = parseUrls lines := by
  rw [main_trace w fs lines h]
  induction parseUrls lines with
  | nil => simp [extractedUrls]
  | cons u rest ih =>
    simp only [List.flatMap_cons]
    rw [extractedUrls, List.filterMap_append]
    rw [← extractedUrls, ← extractedUrls, processUrl_extracts, ih]
    rfl

/-! ## Claim C5: the downloaded file's name and content -/

/-- An image server with one image at a URL with an empty path. -/
def rootImgNet : String → Option (List (List Nat)) :=
  fun u => if u = "https://example.com" then some [[7]] else none

/-- **C5.** On a successful download, the output filename is the final
segment of the image URL's path, with `image.jpg` as the fallback when
the path yields no final segment, and the response body (the
concatenation of its streamed chunks) is written to that file inside the
destination directory, leaving every other file unchanged. -/
theorem c5_download_filename_and_body
    (net : String → Option (List (List Nat))) (o : FsOracle)
    (image_url save_path : String) (fs : Fs) (chunks : List (List Nat))
    (hnet : net image_url = some chunks)
    (hopen : o.openOk (save_path ++ "/" ++ dlFilename image_url) = true)
    (hchunk : ∀ i, o.chunkOk (save_path ++ "/" ++ dlFilename image_url) i = true) :
    dlFilename image_url = (if os_basename (urlparse_path image_url) = ""
      then "image.jpg" else os_basename (urlparse_path image_url)) ∧
    (download_image net o image_url save_path fs).1 = true ∧
    (download_image net o image_url save_path fs).2.files
        (save_path ++ "/" ++ dlFilename image_url) =
      some (FileData.bytes chunks.flatten) ∧
    (∀ q, q ≠ save_path ++ "/" ++ dlFilename image_url →
      (download_image net o image_url save_path fs).2.files q = fs.files q) := by
  obtain ⟨fs', h1, h2, h3⟩ :=
    writeChunks_all_ok o (save_path ++ "/" ++ dlFilename image_url) hchunk
      chunks 0 []
      (fs.writeFile (save_path ++ "/" ++ dlFilename image_url)
        (FileData.bytes []))
      (by simp [Fs.writeFile])
  refine ⟨rfl, ?_, ?_, ?_⟩
  · simp [download_image, hnet, hopen, h1]
  · simp only [download_image, hnet, hopen, if_true, h1]
    simpa using h2
  · intro q hq
    simp only [download_image, hnet, hopen, if_true, h1]
    rw [h3 q hq]
    simp [Fs.writeFile, hq]

/-- **C5, witness.** `.../pics/cat.png` is saved as `cat.png` with the
chunks concatenated; a URL with no path falls back to `image.jpg`. -/
theorem c5_witness :
    (download_image demoImgNet allOkFso "http://e.com/pics/cat.png" "dist"
        emptyFs).2.files ("dist" ++ "/" ++ dlFilename "http://e.com/pics/cat.png") =
      some (FileData.bytes [1, 2, 3]) ∧
    dlFilename "https://example.com" = "image.jpg" ∧
    (download_image rootImgNet allOkFso "https://example.com" "dist"
        emptyFs).2.files ("dist" ++ "/" ++ dlFilename "https://example.com") =
      some (FileData.bytes [7]) := by
  refine ⟨?_, by decide, ?_⟩
  · exact (c5_download_filename_and_body demoImgNet allOkFso
      "http://e.com/pics/cat.png" "dist" emptyFs [[1, 2], [3]]
      (by decide) (by decide) (fun i => rfl)).2.2.1
  · exact (c5_download_filename_and_body rootImgNet allOkFso
      "https://example.com" "dist" emptyFs [[7]]
      (by decide) (by decide) (fun i => rfl)).2.2.1

/-! ## Claim C9: a bad status writes nothing at all -/

/-- **C9.** If the GET fails (network error or non-success status raised
by `raise_for_status`, which happens before any filename derivation or
`open`), `download_image` returns `false` with the filesystem completely
untouched; by contrast a mid-stream chunk-write failure can leave a
partial file behind. -/
theorem c9_bad_status_leaves_fs_untouched
    (net : String → Option (List (List Nat))) (o : FsOracle)
    (image_url save_path : String) (fs : Fs)
    (h : net image_url = none) :
    download_image net o image_url save_path fs = (false, fs) ∧
    (∀ p, (download_image net o image_url save_path fs).2.files p = fs.files p) ∧
    ((download_image demoImgNet failAfterOneFso "http://e.com/pics/cat.png"
        "dist" emptyFs).1 = false ∧
      (download_image demoImgNet failAfterOneFso "http://e.com/pics/cat.png"
        "dist" emptyFs).2.files "dist/cat.png" = some (FileData.bytes [1, 2]) ∧
      emptyFs.files "dist/cat.png" = none) := by
  refine ⟨by simp [download_image, h], ?_, by decide, by decide, by decide⟩
  intro p
  simp [download_image, h]

/-- **C9, witness.** A failing image URL leaves the filesystem as it
was. -/
theorem c9_witness :
    download_image demoImgNet allOkFso "http://nope" "dist" emptyFs =
      (false, emptyFs) :=
  (c9_bad_status_leaves_fs_untouched demoImgNet allOkFso "http://nope" "dist"
    emptyFs (by decide)).1

/-! ## Claim C8: download failures are non-fatal booleans -/

/-- **C8.** `download_image` reports its outcome as a boolean instead of
raising: `false` on a failed GET and on a failed `open`; with a
successful GET and open it returns `true` exactly when every streamed
chunk write succeeds; and the driver keeps processing the whole batch
regardless — every parsed URL is extracted no matter which downloads or
writes failed. -/
theorem c8_failures_are_nonfatal
    (net : String → Option (List (List Nat))) (o : FsOracle)
    (image_url save_path : String) (fs : Fs) :
    (net image_url = none →
      download_image net o image_url save_path fs = (false, fs)) ∧
    (∀ chunks, net image_url = some chunks →
      o.openOk (save_path ++ "/" ++ dlFilename image_url) = false →
      download_image net o image_url save_path fs = (false, fs)) ∧
    (∀ chunks, net image_url = some chunks →
      o.openOk (save_path ++ "/" ++ dlFilename image_url) = true →
      ((download_image net o image_url save_path fs).1 = true ↔
        ∀ j, j < chunks.length →
          o.chunkOk (save_path ++ "/" ++ dlFilename image_url) j = true)) ∧
    (∀ (w : World) (fs0 : Fs) (lines : List String),
      w.urlsFile = some lines →
      extractedUrls (main w fs0).2.2 = parseUrls lines) := by
  refine ⟨?_, ?_, ?_, ?_⟩
  · intro h
    simp [download_image, h]
  · intro chunks hnet hopen
    simp [download_image, hnet, hopen]
  · intro chunks hnet hopen
    have hiff := writeChunks_ok_iff o (save_path ++ "/" ++ dlFilename image_url)
      chunks 0
      ((fs.writeFile (save_path ++ "/" ++ dlFilename image_url)
        (FileData.bytes [])))
    simp only [Nat.zero_add] at hiff
    rw [← hiff]
    constructor
    · intro h1
      rcases hw : writeChunks o (save_path ++ "/" ++ dlFilename image_url)
          chunks 0
          (fs.writeFile (save_path ++ "/" ++ dlFilename image_url)
            (FileData.bytes [])) with fsE | fsO
      · exfalso
        simp [download_image, hnet, hopen, hw] at h1
      · exact ⟨fsO, rfl⟩
    · rintro ⟨fs', hfs'⟩
      simp [download_image, hnet, hopen, hfs']
  · intro w fs0 lines h
    exact main_extracts w fs0 lines h

/-- **C8, witness.** The three failure/continuation behaviours at
concrete inputs: failed GET, the chunk-success criterion under a
mid-stream failure oracle, and the full batch being extracted in
`demoWorld` even though its second URL fails. -/
theorem c8_witness :
    download_image demoImgNet allOkFso "http://nowhere" "dist" emptyFs =
      (false, emptyFs) ∧
    ((download_image demoImgNet failAfterOneFso "http://e.com/pics/cat.png"
        "dist" emptyFs).1 = true ↔
      ∀ j, j < ([[1, 2], [3]] : List (List Nat)).length →
        failAfterOneFso.chunkOk
          ("dist" ++ "/" ++ dlFilename "http://e.com/pics/cat.png") j = true) ∧
    extractedUrls (main demoWorld emptyFs).2.2 =
      parseUrls ["http://e.com/page\n", "  \n", "http://x.org\n"] := by
  refine ⟨?_, ?_, ?_⟩
  · exact (c8_failures_are_nonfatal demoImgNet allOkFso "http://nowhere" "dist"
      emptyFs).1 (by decide)
  · exact (c8_failures_are_nonfatal demoImgNet failAfterOneFso
      "http://e.com/pics/cat.png" "dist" emptyFs).2.2.1 [[1, 2], [3]]
      (by decide) (by decide)
  · exact (c8_failures_are_nonfatal demoImgNet allOkFso "x" "dist"
      emptyFs).2.2.2 demoWorld emptyFs _ rfl

/-! ## Symbolic lemmas about `urlsplit` / `urljoin` -/

/-- Every scheme that may carry relative URLs may carry a netloc. -/
lemma uses_relative_subset_netloc : ∀ s ∈ uses_relative, s ∈ uses_netloc := by
  decide

/-- When the URL has a scheme of its own, the default scheme passed to
`urlsplit` is irrelevant. -/
lemma urlsplit_default_irrelevant (d url : String) (h : schemeOf url ≠ "") :
    urlsplit d url = urlsplit "" url := by
  rcases hs : splitScheme url.data with _ | p
  · exfalso
    apply h
    simp [schemeOf, urlsplit, hs]
  · simp [urlsplit, hs]

/-- Joining a nonempty URL onto a base with a scheme never produces the
empty string. -/
lemma urljoin_ne_empty (base url : String) (hb : schemeOf base ≠ "")
    (hu : url ≠ "") :
    urljoin base url ≠ "" := by
  have hbne : base ≠ "" := by
    intro h
    apply hb
    rw [h]
    decide
  simp only [urljoin]
  rw [if_neg hbne, if_neg hu]
  by_cases h1 : (urlsplit (urlsplit "" base).scheme url).scheme ≠
      (urlsplit "" base).scheme ∨
      (urlsplit (urlsplit "" base).scheme url).scheme ∉ uses_relative
  · rw [if_pos h1]
    exact hu
  · rw [if_neg h1]
    push_neg at h1
    have hsch : (urlsplit (urlsplit "" base).scheme url).scheme ≠ "" := by
      rw [h1.1]
      exact hb
    by_cases h2 : (urlsplit (urlsplit "" base).scheme url).scheme ∈ uses_netloc ∧
        (urlsplit (urlsplit "" base).scheme url).netloc ≠ ""
    · rw [if_pos h2]
      exact urlunsplit_ne_empty _ hsch
    · rw [if_neg h2]
      by_cases h3 : (urlsplit (urlsplit "" base).scheme url).path = ""
      · rw [if_pos h3]
        exact urlunsplit_ne_empty _ hsch
      · rw [if_neg h3]
        exact urlunsplit_ne_empty _ hsch

/-- An absolute URL (one with its own scheme) passes through `urljoin`
unchanged, provided either its scheme differs from the base's, or its
scheme is not one that supports relative resolution, or it has an
authority and splits cleanly (`urlunsplit ∘ urlsplit` is the identity
on it). -/
lemma urljoin_absolute (base X : String) (h : schemeOf X ≠ "")
    (hcase : schemeOf X ≠ schemeOf base ∨ schemeOf X ∉ uses_relative ∨
      (urlparse_netloc X ≠ "" ∧ urlunsplit (urlsplit "" X) = X)) :
    urljoin base X = X := by
  by_cases hb : base = ""
  · simp [urljoin, hb]
  · have hX : X ≠ "" := by
      intro hX
      apply h
      rw [hX]
      decide
    simp only [urljoin]
    rw [if_neg hb, if_neg hX]
    rw [urlsplit_default_irrelevant (urlsplit "" base).scheme X h]
    by_cases h1 : (urlsplit "" X).scheme ≠ (urlsplit "" base).scheme ∨
        (urlsplit "" X).scheme ∉ uses_relative
    · rw [if_pos h1]
    · rw [if_neg h1]
      push_neg at h1
      rcases hcase with hc1 | hc2 | ⟨hnl, hrt⟩
      · exact absurd h1.1 hc1
      · exact absurd h1.2 hc2
      · rw [if_pos ⟨uses_relative_subset_netloc _ h1.2, hnl⟩]
        exact hrt

/-- Under a network oracle that only answers URLs with a scheme (as
`requests` enforces), the extractor's og:image result is never the
present-but-empty string, so the driver's truthiness test on it
coincides with a presence test. -/
lemma gpm_og_ne_some_empty (net : String → Option Html) (url : String)
    (h : ∀ u, (net u).isSome = true → schemeOf u ≠ "") :
    (get_page_metadata net url).og ≠ some "" := by
  rcases hn : net url with _ | soup
  · simp [get_page_metadata, hn]
  · have hsch : schemeOf url ≠ "" := h url (by simp [hn])
    rcases hf : findTagAttr soup "meta" "property" "og:image" with _ | t
    · simp [get_page_metadata, hn, hf]
    · rcases hc : attrGet t "content" with _ | c
      · simp [get_page_metadata, hn, hf, hc]
      · by_cases hce : c = ""
        · simp [get_page_metadata, hn, hf, hc, hce]
        · have hogv : (get_page_metadata net url).og = some (urljoin url c) := by
            simp [get_page_metadata, hn, hf, hc, hce]
          rw [hogv]
          simp only [ne_eq, Option.some.injEq]
          exact urljoin_ne_empty url c hsch hce

/-! ## Claim C1: og:image extraction and base resolution -/

/-- **C1, counterexample.** The claim requires that whenever the first
og:image meta element carries a content attribute with value `X`, the
result is `X` resolved against the page URL — with no exception for
`X = ""`. At `X = ""` the resolution `urljoin url ""` returns the page
URL itself, so the claim predicts `some "http://example.com/page"`; the
code's truthiness guard `og_image.get('content')` instead yields an
absent result. -/
theorem c1_counterexample :
    (get_page_metadata
        (fun _ => some [⟨"meta", [("property", "og:image"), ("content", "")], ""⟩])
        "http://example.com/page").og = none ∧
    urljoin "http://example.com/page" "" = "http://example.com/page" ∧
    (none : Option String) ≠ some "http://example.com/page" := by
  decide

/-- **C1** (amended: the content value must be *nonempty*; the og:image
result is absent when the element or attribute is missing *or the
attribute's value is empty*). When the first
`<meta property="og:image">` element carries a nonempty content `X`, the
extractor returns `urljoin page_url X`; and `urljoin` passes an absolute
`X` (one with its own scheme) through unchanged under the stated
side conditions, while a relative `X` is joined to the page URL by the
same `urljoin`. -/
theorem c1_og_image_resolution (url : String) (soup : Html) :
    (∀ t X, findTagAttr soup "meta" "property" "og:image" = some t →
      attrGet t "content" = some X → X ≠ "" →
      (get_page_metadata (fun _ => some soup) url).og = some (urljoin url X)) ∧
    (findTagAttr soup "meta" "property" "og:image" = none →
      (get_page_metadata (fun _ => some soup) url).og = none) ∧
    (∀ t, findTagAttr soup "meta" "property" "og:image" = some t →
      attrGet t "content" = none →
      (get_page_metadata (fun _ => some soup) url).og = none) ∧
    (∀ t, findTagAttr soup "meta" "property" "og:image" = some t →
      attrGet t "content" = some "" →
      (get_page_metadata (fun _ => some soup) url).og = none) ∧
    (∀ base X, schemeOf X ≠ "" →
      (schemeOf X ≠ schemeOf base ∨ schemeOf X ∉ uses_relative ∨
        (urlparse_netloc X ≠ "" ∧ urlunsplit (urlsplit "" X) = X)) →
      urljoin base X = X) := by
  refine ⟨?_, ?_, ?_, ?_, ?_⟩
  · intro t X hf hc hX
    simp [get_page_metadata, hf, hc, hX]
  · intro hf
    simp [get_page_metadata, hf]
  · intro t hf hc
    simp [get_page_metadata, hf, hc]
  · intro t hf hc
    simp [get_page_metadata, hf, hc]
  · exact urljoin_absolute

/-- **C1, witness.** The relative `/pics/cat.png` in `demoSoup` is
resolved against the page URL; an absolute image URL with a different
scheme passes through unchanged. -/
theorem c1_witness :
    (get_page_metadata (fun _ => some demoSoup) "http://e.com/page").og =
      some (urljoin "http://e.com/page" "/pics/cat.png") ∧
    urljoin "http://e.com/page" "https://cdn.example.com/i.png" =
      "https://cdn.example.com/i.png" := by
  constructor
  · exact (c1_og_image_resolution "http://e.com/page" demoSoup).1
      ⟨"meta", [("property", "og:image"), ("content", "/pics/cat.png")], ""⟩
      "/pics/cat.png" (by decide) (by decide) (by decide)
  · exact (c1_og_image_resolution "http://e.com/page" demoSoup).2.2.2.2
      "http://e.com/page" "https://cdn.example.com/i.png" (by decide)
      (Or.inl (by decide))

/-! ## Claim C6: title and description extraction -/

/-- **C6, counterexample.** The claim says the description is absent
only when no `<meta name="description">` tag exists, and otherwise
equals the tag's content attribute trimmed. For a tag present with
`content=""`, trimming gives the present empty string, but the code's
truthiness guard yields an absent result. -/
theorem c6_counterexample :
    (get_page_metadata
        (fun _ => some [⟨"meta", [("name", "description"), ("content", "")], ""⟩])
        "http://example.com/").desc = none ∧
    pyStrip "" = "" ∧
    (none : Option String) ≠ some "" := by
  decide

/-- **C6** (amended: the description is absent when the meta tag is
missing, when it lacks a content attribute, *or when the content is
empty*; otherwise it is the content trimmed). The title is absent iff no
`<title>` element exists, and otherwise is the first `<title>`'s text
with surrounding whitespace stripped. -/
theorem c6_title_description_extraction (url : String) (soup : Html) :
    (findTag soup "title" = none →
      (get_page_metadata (fun _ => some soup) url).title = none) ∧
    (∀ t, findTag soup "title" = some t →
      (get_page_metadata (fun _ => some soup) url).title =
        some (pyStrip t.text)) ∧
    (findTagAttr soup "meta" "name" "description" = none →
      (get_page_metadata (fun _ => some soup) url).desc = none) ∧
    (∀ t c, findTagAttr soup "meta" "name" "description" = some t →
      attrGet t "content" = some c → c ≠ "" →
      (get_page_metadata (fun _ => some soup) url).desc = some (pyStrip c)) ∧
    (∀ t, findTagAttr soup "meta" "name" "description" = some t →
      (attrGet t "content" = none ∨ attrGet t "content" = some "") →
      (get_page_metadata (fun _ => some soup) url).desc = none) := by
  refine ⟨?_, ?_, ?_, ?_, ?_⟩
  · intro hf
    simp [get_page_metadata, hf]
  · intro t hf
    simp [get_page_metadata, hf]
  · intro hf
    simp [get_page_metadata, hf]
  · intro t c hf hc hce
    simp [get_page_metadata, hf, hc, hce]
  · intro t hf hc
    rcases hc with hc | hc <;> simp [get_page_metadata, hf, hc]

/-- **C6, witness.** `demoSoup`'s `<title>  Foo  </title>` yields
`"Foo"` and `content="  Bar  "` yields `"Bar"`. -/
theorem c6_witness :
    (get_page_metadata (fun _ => some demoSoup) "http://e.com/page").title =
      some "Foo" ∧
    (get_page_metadata (fun _ => some demoSoup) "http://e.com/page").desc =
      some "Bar" := by
  constructor
  · exact (c6_title_description_extraction "http://e.com/page" demoSoup).2.1
      ⟨"title", [], "  Foo  "⟩ (by decide)
  · exact (c6_title_description_extraction "http://e.com/page" demoSoup).2.2.2.1
      ⟨"meta", [("name", "description"), ("content", "  Bar  ")], ""⟩
      "  Bar  " (by decide) (by decide) (by decide)

/-! ## Claim C7: the driver's URL list and call pattern -/

/-- Modelled from the spec's words (refinement target for C7): the calls
the driver should make for one URL — the extractor; the image fetcher if
and only if an og:image URL was found; then unconditionally the metadata
writer with whatever title and description were obtained. -/
def specUrlCalls (w : World) (url : String) : List Ev :=
  let m := get_page_metadata w.net url
  Ev.extract url ::
    (match m.og with
     | some img => [Ev.fetchImage img]
     | none => []) ++ [Ev.writeMeta url m.title m.desc]

/-- **C7.** When the input file opens, the driver's trace is exactly the
concatenation, in file order with no deduplication, of the per-URL call
sequences `specUrlCalls` over the trimmed non-empty lines. The
hypothesis on the network oracle records that `requests` raises on
scheme-less URLs (`MissingSchema`), which rules out the degenerate case
of a successfully fetched page whose resolved og:image URL is the empty
string (only then would the driver's truthiness test differ from the
spec's presence test). -/
theorem c7_driver_urls_and_calls (w : World) (fs : Fs) (lines : List String)
    (hfile : w.urlsFile = some lines)
    (hnet : ∀ u, (w.net u).isSome = true → schemeOf u ≠ "") :
    (main w fs).2.2 =
      ((lines.map pyStrip).filter (fun s => s ≠ "")).flatMap (specUrlCalls w) := by
  rw [main_trace w fs lines hfile]
  have hurls : parseUrls lines = (lines.map pyStrip).filter (fun s => s ≠ "") :=
    rfl
  rw [← hurls]
  have hfun : ∀ url, (processUrl w distDir emptyFs url).2 = specUrlCalls w url := by
    intro url
    rcases hog : (get_page_metadata w.net url).og with _ | img
    · simp [processUrl, specUrlCalls, hog]
    · have himg : img ≠ "" := by
        intro he
        apply gpm_og_ne_some_empty w.net url hnet
        rw [hog, he]
      simp [processUrl, specUrlCalls, hog, himg]
  simp only [hfun]

/-- **C7, witness.** `demoWorld`'s three raw lines are trimmed to two
URLs; the first gets extract/fetch/write, the failing second gets
extract/write only. -/
theorem c7_witness :
    (main demoWorld emptyFs).2.2 =
      ((["http://e.com/page\n", "  \n", "http://x.org\n"].map pyStrip).filter
        (fun s => s ≠ "")).flatMap (specUrlCalls demoWorld) := by
  apply c7_driver_urls_and_calls demoWorld emptyFs _ rfl
  intro u hu
  by_cases he : u = "http://e.com/page"
  · rw [he]
    decide
  · exfalso
    simp [demoWorld, demoNet, he] at hu


/-! ## Validation of the models on CPython / end-to-end test vectors

The `urljoin` examples reproduce CPython's observable behaviour,
including its quirks (`urljoin("#", "#") = ""`,
`urljoin("http://a/b", "http:g") = "http://a/g"`); the final examples
run the whole driver on `demoWorld` inside the kernel. -/

example : urljoin "http://a/b/c" "g" = "http://a/b/g" := by decide

example : urljoin "http://a/b/c" "/g" = "http://a/g" := by decide

example : urljoin "http://a/b/c" "http://x/y" = "http://x/y" := by decide

example : urljoin "http://a/b/c" "../g" = "http://a/g" := by decide

example : urljoin "http://a/b/c" "?q" = "http://a/b/c?q" := by decide

example : urljoin "http://a/b/c" "//x/y" = "http://x/y" := by decide

example : urljoin "#" "#" = "" := by decide

example : urljoin "http://e.com/page" "" = "http://e.com/page" := by decide

example : urljoin "http://a/b" "https://c/d" = "https://c/d" := by decide

example : urljoin "http://a/b" "http:g" = "http://a/g" := by decide

example : urljoin "http://a/b/c/" "g" = "http://a/b/c/g" := by decide

example : urljoin "http://a/b/c" "g/" = "http://a/b/g/" := by decide

example : urljoin "http://a/b/c" "./g#f" = "http://a/b/g#f" := by decide

example :
    urljoin "https://e.com/a/b" "/img/x.png?v=2" =
      "https://e.com/img/x.png?v=2" := by decide

example : os_basename "/pics/cat.png" = "cat.png" := by decide

example : os_basename "" = "" := by decide

example : urlparse_netloc "https://a.example.com/page" = "a.example.com" := by
  decide

example : pyStrip "  Foo  " = "Foo" := by decide

example :
    get_page_metadata demoNet "http://e.com/page" =
      ⟨some "http://e.com/pics/cat.png", some "Foo", some "Bar"⟩ := by decide

example : (main demoWorld emptyFs).1 = 0 := by decide

example :
    (main demoWorld emptyFs).2.2 =
      [Ev.extract "http://e.com/page",
       Ev.fetchImage "http://e.com/pics/cat.png",
       Ev.writeMeta "http://e.com/page" (some "Foo") (some "Bar"),
       Ev.extract "http://x.org",
       Ev.writeMeta "http://x.org" none none] := by decide

example :
    (main demoWorld emptyFs).2.1.files "dist/cat.png" =
      some (FileData.bytes [1, 2, 3]) := by decide

example :
    (main demoWorld emptyFs).2.1.files "dist/x.org.txt" =
      some (FileData.text
        "URL: http://x.org\n\nTitle: Not found\n\nDescription: Not found\n") := by
  decide

end OGImageGrabber
